import Mathlib

/-!
# Verification of the caffe2 dispatch / workspace / recurrent-execution core

This file gives a shallow embedding of the operator-dispatch core
(caffe2/core/operator.cc), the workspace blob/net model
(caffe2/core/workspace.cc, workspace.h) and the recurrent-network
step-workspace scheduling and state initialization
(caffe2/operators/recurrent_network_op.h), together with theorems
checking the natural-language specification against the code.

Conventions of the embedding:
- C++ exceptions and CAFFE_ENFORCE / CAFFE_THROW fatal paths are modelled
  with Except: an error value is a thrown/fatal outcome.
- Mutable state (the workspace blob map, the net map, the atomic
  last_failed_op_net_position counter, the step-workspace vector) is
  threaded explicitly: a mutating member function becomes a function
  returning the updated state together with its result.
- Type-erased Blob cells are modelled as Option Nat: none is a freshly
  constructed empty Blob, some v a cell holding payload v.
- The process-wide registries (device-type registry, operator registry,
  schema registry, engine-preference tables) are parameters of the
  dispatch functions, collected in a DispatchEnv record, because they are
  runtime state the dispatch code only reads.
-/

namespace Caffe2

/-- Outcome of one registry Create call for a given key, as observed by
TryCreateOperator in operator.cc: the registry either returns an instance,
returns null (key not registered), throws UnsupportedOperatorFeature, or
throws some other error. The constructed instance is identified by a
numeric id. -/
inductive RegOutcome where
  | created (id : Nat)
  | missing
  | unsupported
  | hardError
deriving DecidableEq, Repr

/-- The parts of an OperatorDef consumed by dispatch and by the
OperatorBase constructor: type name, explicit engine string
(comma-separated), device type (from device_option), input names and
output names. -/
structure OperatorDef where
  type : String
  engine : String
  device_type : Nat
  input : List String
  output : List String
deriving DecidableEq, Repr

/-- The read-only process-wide environment consulted by _CreateOperator:
device registry membership, per-device operator registry (keyed by the
registry key string), the optional schema for an op type (modelled by its
Verify predicate), the two engine-preference tables, and the two flags
FLAGS_caffe2_disable_implicit_engine_preference and
FLAGS_caffe2_operator_max_engine_name_length. -/
structure DispatchEnv where
  deviceRegistered : Nat → Bool
  registryCreate : Nat → String → RegOutcome
  schema : String → Option (OperatorDef → Bool)
  perOpEnginePref : Nat → String → Option (List String)
  globalEnginePref : Nat → Option (List String)
  disableImplicitEnginePref : Bool
  maxEngineNameLength : Nat

/-- Fatal / thrown outcomes of dispatch, mirroring the CAFFE_ENFORCE and
rethrow sites in operator.cc. -/
inductive DispatchError where
  | deviceNotRegistered (device : Nat)
  | schemaCheckFailed (opType : String)
  | registryError (key : String)
  | cannotCreateOperator (opType : String) (device : Nat)
deriving DecidableEq, Repr

/-- A constructed kernel instance as far as dispatch observes it: the id
handed back by the registry, the annotated engine (empty when the bare
fallback was used), and the net position set by CreateOperator. -/
structure OpInstance where
  kernelId : Nat
  engine : String
  net_position : Int
deriving DecidableEq, Repr

/-- OpRegistryKey from operator.cc: bare op type for no or DEFAULT engine,
otherwise the _ENGINE_ suffixed key. -/
def OpRegistryKey (op_type engine : String) : String :=
  if engine = "" ∨ engine = "DEFAULT" then op_type
  else op_type ++ "_ENGINE_" ++ engine

/-- Splitter over the underlying character list: pieces are cut at each
comma, in order. -/
def splitCommaAux : List Char → List Char → List String
  | [], acc => [String.mk acc.reverse]
  | c :: rest, acc =>
    if c = ',' then String.mk acc.reverse :: splitCommaAux rest []
    else splitCommaAux rest (c :: acc)

/-- Modelled from the spec: the comma-splitting helper (split from
caffe2/utils/string_utils, not under src) which turns the explicit engine
string of a spec into the list of engine names, comma-separated, in
order. -/
def splitEngines (s : String) : List String := splitCommaAux s.data []

/-- TryCreateOperator from operator.cc: fatal if the device type is not
registered; otherwise ask the registry for the key; an
UnsupportedOperatorFeature throw is swallowed into a null result, a null
registry answer stays null, any other throw propagates. -/
def TryCreateOperator (env : DispatchEnv) (key : String) (d : OperatorDef) :
    Except DispatchError (Option Nat) :=
  if env.deviceRegistered d.device_type then
    match env.registryCreate d.device_type key with
    | RegOutcome.created id => Except.ok (some id)
    | RegOutcome.missing => Except.ok none
    | RegOutcome.unsupported => Except.ok none
    | RegOutcome.hardError => Except.error (DispatchError.registryError key)
  else
    Except.error (DispatchError.deviceNotRegistered d.device_type)

/-- annotate_engine with the truncation applied at the call site in
_CreateOperator: names longer than the configured maximum are cut to that
length. -/
def annotateEngine (env : DispatchEnv) (engine : String) : String :=
  if engine.length ≤ env.maxEngineNameLength then engine
  else engine.take env.maxEngineNameLength

/-- The ordered candidate engine list built by _CreateOperator: explicit
engines from the spec (when the engine string is non-empty), then the
per-operator preference for (device, opType), then the global per-device
preference; the two implicit parts are dropped when
FLAGS_caffe2_disable_implicit_engine_preference is set. -/
def candidateEngines (env : DispatchEnv) (d : OperatorDef) : List String :=
  (if d.engine.length ≠ 0 then splitEngines d.engine else []) ++
  (if env.disableImplicitEnginePref then []
   else (env.perOpEnginePref d.device_type d.type).getD []) ++
  (if env.disableImplicitEnginePref then []
   else (env.globalEnginePref d.device_type).getD [])

/-- The engine loop of _CreateOperator: try each candidate engine in
order; a successful construction is annotated with that engine and
returned; a null result moves on to the next candidate; a thrown error
propagates. Returns none when every candidate failed recoverably. -/
def engineTryLoop (env : DispatchEnv) (d : OperatorDef) :
    List String → Except DispatchError (Option OpInstance)
  | [] => Except.ok none
  | engine :: rest =>
    match TryCreateOperator env (OpRegistryKey d.type engine) d with
    | Except.error e => Except.error e
    | Except.ok (some id) =>
        Except.ok (some { kernelId := id, engine := annotateEngine env engine, net_position := 0 })
    | Except.ok none => engineTryLoop env d rest

/-- The post-schema phase of _CreateOperator: run the engine loop over the
candidate list, and if no candidate produced an instance fall back to the
bare op type; if that also yields null, fail with the terminal
cannot-create error. -/
def engineDispatch (env : DispatchEnv) (d : OperatorDef) :
    Except DispatchError OpInstance :=
  match engineTryLoop env d (candidateEngines env d) with
  | Except.error e => Except.error e
  | Except.ok (some op) => Except.ok op
  | Except.ok none =>
    match TryCreateOperator env d.type d with
    | Except.error e => Except.error e
    | Except.ok (some id) =>
        Except.ok { kernelId := id, engine := "", net_position := 0 }
    | Except.ok none =>
        Except.error (DispatchError.cannotCreateOperator d.type d.device_type)

/-- _CreateOperator from operator.cc: verify against the schema when one
is registered (fatal on violation); when no schema is registered only a
diagnostic is logged and construction proceeds; then dispatch over the
candidate engines. -/
def _CreateOperator (env : DispatchEnv) (d : OperatorDef) :
    Except DispatchError OpInstance :=
  match env.schema d.type with
  | some verify =>
      if verify d then engineDispatch env d
      else Except.error (DispatchError.schemaCheckFailed d.type)
  | none => engineDispatch env d

/-- The slice of workspace state dispatch writes: the atomic
last_failed_op_net_position diagnostic counter. -/
structure WsDispatchState where
  last_failed_op_net_position : Int
deriving DecidableEq, Repr

/-- CreateOperator from operator.cc: run _CreateOperator; on success set
the net position on the instance; on any failure record the position in
the workspace when it is non-zero, then rethrow. -/
def CreateOperator (env : DispatchEnv) (d : OperatorDef) (ws : WsDispatchState)
    (net_position : Int) : WsDispatchState × Except DispatchError OpInstance :=
  match _CreateOperator env d with
  | Except.ok op => (ws, Except.ok { op with net_position := net_position })
  | Except.error e =>
    if net_position ≠ 0 then
      ({ ws with last_failed_op_net_position := net_position }, Except.error e)
    else
      (ws, Except.error e)

/-- Concrete registry scenario for dispatch: op type Op with explicit
engines A and B, a per-op preference C and a global preference D, and
only engine B constructible (device 0 registered, every other key
missing). -/
def envOnlyB : DispatchEnv where
  deviceRegistered := fun _ => true
  registryCreate := fun _ key =>
    if key = "Op_ENGINE_B" then RegOutcome.created 42 else RegOutcome.missing
  schema := fun _ => none
  perOpEnginePref := fun _ _ => some ["C"]
  globalEnginePref := fun _ => some ["D"]
  disableImplicitEnginePref := false
  maxEngineNameLength := 10

/-- The spec of the scenario: explicit engine string A,B. -/
def defOnlyB : OperatorDef where
  type := "Op"
  engine := "A,B"
  device_type := 0
  input := []
  output := []

/-- A spec with the single explicit engine A. -/
def defEngineA : OperatorDef where
  type := "Op"
  engine := "A"
  device_type := 0
  input := []
  output := []

/-- A registry whose every construction attempt signals the
feature-unsupported condition. -/
def envUnsup : DispatchEnv where
  deviceRegistered := fun _ => true
  registryCreate := fun _ _ => RegOutcome.unsupported
  schema := fun _ => none
  perOpEnginePref := fun _ _ => none
  globalEnginePref := fun _ => none
  disableImplicitEnginePref := false
  maxEngineNameLength := 10

/-- A registry whose every construction attempt throws a hard
(non-unsupported) error. -/
def envHard : DispatchEnv where
  deviceRegistered := fun _ => true
  registryCreate := fun _ _ => RegOutcome.hardError
  schema := fun _ => none
  perOpEnginePref := fun _ _ => none
  globalEnginePref := fun _ => none
  disableImplicitEnginePref := false
  maxEngineNameLength := 10

/-- A registry that constructs everything but whose schema for every op
type requires exactly two inputs. -/
def envSchemaTwoInputs : DispatchEnv where
  deviceRegistered := fun _ => true
  registryCreate := fun _ _ => RegOutcome.created 7
  schema := fun _ => some (fun d => decide (d.input.length = 2))
  perOpEnginePref := fun _ _ => none
  globalEnginePref := fun _ => none
  disableImplicitEnginePref := false
  maxEngineNameLength := 10

/-! ## Workspace blob model (workspace.h / workspace.cc) -/

/-- A Blob is a type-erased mutable cell; none models a freshly
constructed empty Blob, some v a cell holding payload v. -/
abbrev Blob := Option Nat

/-- A Workspace as far as blob resolution observes it: the local blob
map, the forwarded-blobs map carrying for each forwarded name the source
workspace and the source name, and the optional shared parent workspace.
Pointers to other workspaces are modelled by embedding the pointed-to
workspace value. -/
inductive Workspace where
  | mk (blob_map : List (String × Blob))
       (forwarded_blobs : List (String × Workspace × String))
       (shared : Option Workspace)

/-- The local blob map of a workspace. -/
def Workspace.blob_map : Workspace → List (String × Blob)
  | Workspace.mk b _ _ => b

/-- The forwarded-blob map of a workspace. -/
def Workspace.forwarded_blobs : Workspace → List (String × Workspace × String)
  | Workspace.mk _ f _ => f

/-- The shared parent workspace, if any. -/
def Workspace.shared : Workspace → Option Workspace
  | Workspace.mk _ _ s => s

/-- First-match association lookup in the local blob map. -/
def lookupBlob : List (String × Blob) → String → Option Blob
  | [], _ => none
  | (n, b) :: rest, name => if n = name then some b else lookupBlob rest name

/-- First-match association lookup in the forwarded-blobs map. -/
def lookupFwd : List (String × Workspace × String) → String →
    Option (Workspace × String)
  | [], _ => none
  | (n, src, srcName) :: rest, name =>
    if n = name then some (src, srcName) else lookupFwd rest name

mutual
/-- Workspace::HasBlob from workspace.h: check the local map first, then
the forwarding map (delegating to the source workspace, whose answer is
final), then the shared parent. -/
def Workspace.HasBlob : Workspace → String → Bool
  | Workspace.mk blobs fwd shared, name =>
    match lookupBlob blobs name with
    | some _ => true
    | none => hasFwdBlob fwd shared name
termination_by ws _ => sizeOf ws

/-- The forwarded-then-shared tail of Workspace::HasBlob, walking the
forwarding map in order and falling back to the shared parent. -/
def hasFwdBlob : List (String × Workspace × String) → Option Workspace → String → Bool
  | [], none, _ => false
  | [], some p, name => Workspace.HasBlob p name
  | (n, src, srcName) :: rest, shared, name =>
    if n = name then Workspace.HasBlob src srcName
    else hasFwdBlob rest shared name
termination_by l shared _ => sizeOf l + sizeOf shared
end

mutual
/-- Workspace::GetBlob (const) from workspace.cc: local map first, then
the forwarding map (reading through to the source workspace, whose answer
is final even when null), then the shared parent guarded by HasBlob; null
when nowhere found. -/
def Workspace.GetBlob : Workspace → String → Option Blob
  | Workspace.mk blobs fwd shared, name =>
    match lookupBlob blobs name with
    | some b => some b
    | none => getFwdBlob fwd shared name
termination_by ws _ => sizeOf ws

/-- The forwarded-then-shared tail of Workspace::GetBlob. -/
def getFwdBlob : List (String × Workspace × String) → Option Workspace → String → Option Blob
  | [], none, _ => none
  | [], some p, name =>
    if Workspace.HasBlob p name then Workspace.GetBlob p name else none
  | (n, src, srcName) :: rest, shared, name =>
    if n = name then Workspace.GetBlob src srcName
    else getFwdBlob rest shared name
termination_by l shared _ => sizeOf l + sizeOf shared
end

/-- Workspace::CreateBlob from workspace.cc: when the name is already
visible (HasBlob) or already forwarded, skip allocation; otherwise insert
a fresh empty Blob into the local map; in all cases return GetBlob on the
resulting state. -/
def Workspace.CreateBlob : Workspace → String → Workspace × Option Blob
  | Workspace.mk blobs fwd shared, name =>
    let ws := Workspace.mk blobs fwd shared
    if ws.HasBlob name then (ws, ws.GetBlob name)
    else if (lookupFwd fwd name).isSome then (ws, ws.GetBlob name)
    else
      let ws2 := Workspace.mk ((name, (none : Blob)) :: blobs) fwd shared
      (ws2, ws2.GetBlob name)

/-- In-place update of the payload of a named entry of the local blob
map. -/
def setBlobInList : List (String × Blob) → String → Nat → List (String × Blob)
  | [], _, _ => []
  | (n, b) :: rest, name, v =>
    if n = name then (n, some v) :: rest else (n, b) :: setBlobInList rest name v

/-- Writing a value through the Blob pointer returned for a local blob:
the payload of the local cell is replaced in place (the cell itself is
never re-created), which is how callers mutate blob contents in the
source. -/
def Workspace.setLocalBlob : Workspace → String → Nat → Workspace
  | Workspace.mk blobs fwd shared, name, v =>
    Workspace.mk (setBlobInList blobs name v) fwd shared

/-! ## Workspace net map (workspace.cc CreateNet) -/

/-- A constructed net as the workspace map stores it; identified by a
numeric id (its contents are irrelevant to the map bookkeeping). -/
structure Net where
  netId : Nat
deriving DecidableEq, Repr

/-- The parts of a NetDef consumed by Workspace::CreateNet: the optional
name field (has_name models protobuf field presence) and the execution
type. -/
structure NetDef where
  name : Option String
  type : String
deriving DecidableEq, Repr

/-- Erase a name from the net map. -/
def eraseNet : List (String × Net) → String → List (String × Net)
  | [], _ => []
  | (n, net) :: rest, name =>
    if n = name then rest else (n, net) :: eraseNet rest name

/-- First-match association lookup in the net map. -/
def lookupNet : List (String × Net) → String → Option Net
  | [], _ => none
  | (n, net) :: rest, name => if n = name then some net else lookupNet rest name

/-- Fatal outcomes of Workspace::CreateNet. -/
inductive CreateNetError where
  | missingName
  | refuseOverwrite (name : String)
deriving DecidableEq, Repr

/-- Workspace::CreateNet from workspace.cc, parameterized by the free
function caffe2::CreateNet (the net constructor, not under src): the
factory receives the net definition together with the names registered in
the net map at the moment it is invoked, so that the erase-before-
construct order is observable, and returns none when construction fails
(for example an unknown net type). The member function is fatal when the
definition has no name, fatal when the name exists and overwrite is
false, erases an existing net before constructing its replacement when
overwrite is true, and on construction failure retains no entry and
returns null. -/
def Workspace.CreateNet (factory : NetDef → List String → Option Net)
    (net_map : List (String × Net)) (net_def : NetDef) (overwrite : Bool) :
    List (String × Net) × Except CreateNetError (Option Net) :=
  match net_def.name with
  | none => (net_map, Except.error CreateNetError.missingName)
  | some nm =>
    if (lookupNet net_map nm).isSome ∧ ¬ overwrite then
      (net_map, Except.error (CreateNetError.refuseOverwrite nm))
    else
      let m1 := if (lookupNet net_map nm).isSome then eraseNet net_map nm else net_map
      match factory net_def (m1.map Prod.fst) with
      | some net => ((nm, net) :: m1, Except.ok (some net))
      | none => (m1, Except.ok none)

/-! ## OperatorBase constructor (operator.cc lines 43-66) -/

/-- The input-gathering loop of the OperatorBase constructor: each input
name must resolve through Workspace::GetBlob, with a descriptive
CAFFE_ENFORCE error naming the op type and the offending input
otherwise. -/
def collectInputs (ws : Workspace) (opType : String) :
    List String → Except String (List Blob)
  | [] => Except.ok []
  | input_str :: rest =>
    match ws.GetBlob input_str with
    | none =>
      Except.error ("op " ++ opType ++ ": Encountered a non-existing input blob: "
        ++ input_str)
    | some b =>
      match collectInputs ws opType rest with
      | Except.error e => Except.error e
      | Except.ok bs => Except.ok (b :: bs)

/-- The output-creation loop of the OperatorBase constructor: each output
name is created through Workspace::CreateBlob with a CHECK_NOTNULL on the
result (a null result aborts), threading the workspace state. -/
def createOutputs (ws : Workspace) :
    List String → Except String (Workspace × List Blob)
  | [] => Except.ok (ws, [])
  | output_str :: rest =>
    match ws.CreateBlob output_str with
    | (_, none) => Except.error "CHECK_NOTNULL failed on output blob"
    | (ws2, some b) =>
      match createOutputs ws2 rest with
      | Except.error e => Except.error e
      | Except.ok (ws3, bs) => Except.ok (ws3, b :: bs)

/-- The OperatorBase constructor from operator.cc: resolve every input
name to an existing blob (fatal otherwise), then create every output
name; returns the updated workspace and the input and output blob
bindings. -/
def OperatorBase.construct (d : OperatorDef) (ws : Workspace) :
    Except String (Workspace × List Blob × List Blob) :=
  match collectInputs ws d.type d.input with
  | Except.error e => Except.error e
  | Except.ok ins =>
    match createOutputs ws d.output with
    | Except.error e => Except.error e
    | Except.ok (ws2, outs) => Except.ok (ws2, ins, outs)

/-! ## Recurrent network step-workspace scheduling
(recurrent_network_op.h, RecurrentNetworkOp::DoRunWithType) -/

namespace RecurrentNetworkOp

/-- The forward-only workspace pool size from DoRunWithType: 4 when the
specialized step executor is in use, 2 otherwise. -/
def num_workspaces_on_fwd_only (rnnExecutor : Bool) : Nat :=
  if rnnExecutor then 4 else 2

/-- std vector resize on the step-workspace vector: growth appends empty
slots and keeps every existing slot; a slot is true when its child
workspace has been created. Only growth occurs at the call sites. -/
def resizeSlots (slots : List Bool) (n : Nat) : List Bool :=
  if n ≤ slots.length then slots.take n
  else slots ++ List.replicate (n - slots.length) false

/-- The two resize statements at the top of DoRunWithType: with a
backward pass, grow the vector to seqLen when seqLen exceeds its size;
without one, grow it to the fixed forward-only pool size when smaller. -/
def sizeStepWorkspaces (has_backward_pass rnnExecutor : Bool) (seqLen : Nat)
    (slots : List Bool) : List Bool :=
  let slots1 :=
    if has_backward_pass ∧ slots.length < seqLen then resizeSlots slots seqLen
    else slots
  let nf := num_workspaces_on_fwd_only rnnExecutor
  if ¬ has_backward_pass ∧ slots1.length < nf then resizeSlots slots1 nf
  else slots1

/-- The slot selected for timestep t in the main loop of DoRunWithType:
slot t with a backward pass, slot t mod poolSize without one. -/
def slotForTimestep (has_backward_pass rnnExecutor : Bool) (t : Nat) : Nat :=
  if has_backward_pass then t
  else t % num_workspaces_on_fwd_only rnnExecutor

/-- The timestep loop of DoRunWithType as it affects the step-workspace
vector: at each timestep the selected slot's child workspace is created
if absent (and reused otherwise). -/
def runTimestepSlots (has_backward_pass rnnExecutor : Bool) (seqLen : Nat)
    (slots : List Bool) : List Bool :=
  (List.range seqLen).foldl
    (fun s t => s.set (slotForTimestep has_backward_pass rnnExecutor t) true)
    slots

/-- The full effect of one DoRunWithType call on the step-workspace
vector: the two resize statements followed by the timestep loop. -/
def stepWorkspacesAfterRun (has_backward_pass rnnExecutor : Bool) (seqLen : Nat)
    (slots : List Bool) : List Bool :=
  runTimestepSlots has_backward_pass rnnExecutor seqLen
    (sizeStepWorkspaces has_backward_pass rnnExecutor seqLen slots)

end RecurrentNetworkOp

/-! ## Recurrent input initialization
(recurrent_network_op.h, detail::initializeRecurrentInput) -/

/-- A tensor as the initialization code observes it: its dimensions and
its flattened contents. -/
structure Tensor where
  dims : List Nat
  data : List Nat
deriving DecidableEq, Repr

/-- Number of dimensions. -/
def Tensor.ndim (t : Tensor) : Nat := t.dims.length

/-- The i-th dimension. -/
def Tensor.dim (t : Tensor) (i : Nat) : Nat := t.dims.getD i 0

/-- detail::repeatCopy: write repeat_n consecutive copies of the first n
source elements. -/
def repeatCopy (repeat_n n : Nat) (src : List Nat) : List Nat :=
  List.flatten (List.replicate repeat_n (src.take n))

/-- detail::initializeRecurrentInput from recurrent_network_op.h, at the
tensor level (the two workspace lookups resolve the state and input
tensors; the state tensor is rebuilt by Resize so only the input tensor
determines the result). Enforces 1 <= ndim <= 3 on the input; stateSize
is the input's last dimension; the priming length is the leading
dimension for 3-D input and 1 otherwise; the state is resized to
(seqLen + primingLength, batchSize, stateSize); for input of rank >= 2
the batch dimension is enforced and the priming values are copied to the
front of the state; for 1-D input the values are repeated batchSize
times. Memory left unwritten by the copy is modelled as zeros. -/
def initializeRecurrentInput (input : Tensor) (seqLen batchSize : Nat) :
    Except String Tensor :=
  if ¬ (1 ≤ input.ndim) then Except.error "input rank out of range"
  else if ¬ (input.ndim ≤ 3) then Except.error "input rank out of range"
  else
    let stateSize := input.dim (input.ndim - 1)
    let initialStateLength := if input.ndim = 3 then input.dim 0 else 1
    let stateDims := [seqLen + initialStateLength, batchSize, stateSize]
    let stateLen := (seqLen + initialStateLength) * batchSize * stateSize
    if 2 ≤ input.ndim then
      if input.dim (input.ndim - 2) ≠ batchSize then
        Except.error "batch size mismatch"
      else
        let primed := input.data.take (batchSize * stateSize * initialStateLength)
        Except.ok ⟨stateDims, primed ++ List.replicate (stateLen - primed.length) 0⟩
    else
      let primed := repeatCopy batchSize stateSize input.data
      Except.ok ⟨stateDims, primed ++ List.replicate (stateLen - primed.length) 0⟩

/-! ## Shared lemmas about blob resolution -/

mutual
theorem getBlob_isSome_eq_hasBlob (ws : Workspace) (name : String) :
    (Workspace.GetBlob ws name).isSome = Workspace.HasBlob ws name := by
  match ws with
  | Workspace.mk blobs fwd shared =>
    rw [Workspace.GetBlob, Workspace.HasBlob]
    cases h : lookupBlob blobs name with
    | some b => simp
    | none => simpa using getFwdBlob_isSome_eq_hasFwdBlob fwd shared name
termination_by sizeOf ws

theorem getFwdBlob_isSome_eq_hasFwdBlob (l : List (String × Workspace × String))
    (shared : Option Workspace) (name : String) :
    (getFwdBlob l shared name).isSome = hasFwdBlob l shared name := by
  match l, shared with
  | [], none => rw [getFwdBlob, hasFwdBlob]; rfl
  | [], some p =>
    rw [getFwdBlob, hasFwdBlob]
    by_cases h : Workspace.HasBlob p name
    · simp [h, getBlob_isSome_eq_hasBlob p name]
    · simp [h]
  | (n, src, srcName) :: rest, shared =>
    rw [getFwdBlob, hasFwdBlob]
    by_cases h : n = name
    · simp [h, getBlob_isSome_eq_hasBlob src srcName]
    · simp [h, getFwdBlob_isSome_eq_hasFwdBlob rest shared name]
termination_by sizeOf l + sizeOf shared
end

theorem getBlob_eq_none_of_hasBlob_false (ws : Workspace) (name : String)
    (h : ws.HasBlob name = false) : ws.GetBlob name = none := by
  have h2 := getBlob_isSome_eq_hasBlob ws name
  rw [h] at h2
  exact Option.not_isSome_iff_eq_none.mp (by simp [h2])

theorem hasFwdBlob_lookup_some (l : List (String × Workspace × String))
    (shared : Option Workspace) (name : String) (src : Workspace) (srcName : String)
    (h : lookupFwd l name = some (src, srcName)) :
    hasFwdBlob l shared name = src.HasBlob srcName := by
  induction l with
  | nil => simp [lookupFwd] at h
  | cons hd tl ih =>
    obtain ⟨n, s2, sn2⟩ := hd
    rw [hasFwdBlob]
    rw [lookupFwd] at h
    by_cases hn : n = name
    · simp [hn] at h ⊢
      rw [h.1, h.2]
    · simp [hn] at h ⊢
      exact ih h

theorem hasFwdBlob_lookup_none (l : List (String × Workspace × String))
    (shared : Option Workspace) (name : String)
    (h : lookupFwd l name = none) :
    hasFwdBlob l shared name =
      (match shared with
       | some p => p.HasBlob name
       | none => false) := by
  induction l with
  | nil => cases shared <;> rw [hasFwdBlob]
  | cons hd tl ih =>
    obtain ⟨n, s2, sn2⟩ := hd
    rw [lookupFwd] at h
    by_cases hn : n = name
    · simp [hn] at h
    · rw [hasFwdBlob]
      simp only [hn, if_false]
      simp [hn] at h
      exact ih h

theorem getFwdBlob_lookup_some (l : List (String × Workspace × String))
    (shared : Option Workspace) (name : String) (src : Workspace) (srcName : String)
    (h : lookupFwd l name = some (src, srcName)) :
    getFwdBlob l shared name = src.GetBlob srcName := by
  induction l with
  | nil => simp [lookupFwd] at h
  | cons hd tl ih =>
    obtain ⟨n, s2, sn2⟩ := hd
    rw [getFwdBlob]
    rw [lookupFwd] at h
    by_cases hn : n = name
    · simp [hn] at h ⊢
      rw [h.1, h.2]
    · simp [hn] at h ⊢
      exact ih h

theorem getFwdBlob_lookup_none (l : List (String × Workspace × String))
    (shared : Option Workspace) (name : String)
    (h : lookupFwd l name = none) :
    getFwdBlob l shared name =
      (match shared with
       | some p => if p.HasBlob name then p.GetBlob name else none
       | none => none) := by
  induction l with
  | nil => cases shared <;> rw [getFwdBlob]
  | cons hd tl ih =>
    obtain ⟨n, s2, sn2⟩ := hd
    rw [lookupFwd] at h
    by_cases hn : n = name
    · simp [hn] at h
    · rw [getFwdBlob]
      simp only [hn, if_false]
      simp [hn] at h
      exact ih h

theorem hasBlob_of_lookupBlob_some (blobs : List (String × Blob))
    (fwd : List (String × Workspace × String)) (shared : Option Workspace)
    (name : String) (b : Blob) (h : lookupBlob blobs name = some b) :
    (Workspace.mk blobs fwd shared).HasBlob name = true := by
  rw [Workspace.HasBlob]
  simp [h]

theorem lookupBlob_eq_none_of_hasBlob_false (blobs : List (String × Blob))
    (fwd : List (String × Workspace × String)) (shared : Option Workspace)
    (name : String) (h : (Workspace.mk blobs fwd shared).HasBlob name = false) :
    lookupBlob blobs name = none := by
  cases hb : lookupBlob blobs name with
  | none => rfl
  | some b => rw [hasBlob_of_lookupBlob_some blobs fwd shared name b hb] at h; cases h

/-! ## Claim theorems -/

/-- C2: GetBlob and HasBlob resolve in the order local blob map, then
forwarded-blob map (read through to the source workspace), then shared
parent workspace, the first match winning; a local entry shadows both a
forwarded entry and a parent entry of the same name; when the name
resolves nowhere GetBlob returns null, and it is a total function (never
throws). -/
theorem getBlob_resolution_precedence (blobs : List (String × Blob))
    (fwd : List (String × Workspace × String)) (shared : Option Workspace)
    (name : String) :
    (∀ b, lookupBlob blobs name = some b →
      (Workspace.mk blobs fwd shared).GetBlob name = some b ∧
      (Workspace.mk blobs fwd shared).HasBlob name = true) ∧
    (∀ src srcName, lookupBlob blobs name = none →
      lookupFwd fwd name = some (src, srcName) →
      (Workspace.mk blobs fwd shared).GetBlob name = src.GetBlob srcName ∧
      (Workspace.mk blobs fwd shared).HasBlob name = src.HasBlob srcName) ∧
    (∀ p, lookupBlob blobs name = none → lookupFwd fwd name = none →
      shared = some p →
      (Workspace.mk blobs fwd shared).GetBlob name = p.GetBlob name ∧
      (Workspace.mk blobs fwd shared).HasBlob name = p.HasBlob name) ∧
    (lookupBlob blobs name = none → lookupFwd fwd name = none →
      shared = none →
      (Workspace.mk blobs fwd shared).GetBlob name = none ∧
      (Workspace.mk blobs fwd shared).HasBlob name = false) ∧
    (∀ ws : Workspace, ws.HasBlob name = false → ws.GetBlob name = none) := by
  refine ⟨?_, ?_, ?_, ?_, ?_⟩
  · intro b hb
    constructor
    · rw [Workspace.GetBlob]; simp [hb]
    · exact hasBlob_of_lookupBlob_some blobs fwd shared name b hb
  · intro src srcName hb hf
    constructor
    · rw [Workspace.GetBlob]
      simp only [hb]
      exact getFwdBlob_lookup_some fwd shared name src srcName hf
    · rw [Workspace.HasBlob]
      simp only [hb]
      exact hasFwdBlob_lookup_some fwd shared name src srcName hf
  · intro p hb hf hs
    subst hs
    constructor
    · rw [Workspace.GetBlob]
      simp only [hb]
      rw [getFwdBlob_lookup_none fwd (some p) name hf]
      by_cases hp : p.HasBlob name
      · simp [hp]
      · simp only [Bool.not_eq_true] at hp
        simp [hp, getBlob_eq_none_of_hasBlob_false p name hp]
    · rw [Workspace.HasBlob]
      simp only [hb]
      rw [hasFwdBlob_lookup_none fwd (some p) name hf]
  · intro hb hf hs
    subst hs
    constructor
    · rw [Workspace.GetBlob]
      simp only [hb]
      rw [getFwdBlob_lookup_none fwd none name hf]
    · rw [Workspace.HasBlob]
      simp only [hb]
      rw [hasFwdBlob_lookup_none fwd none name hf]
  · exact fun ws h => getBlob_eq_none_of_hasBlob_false ws name h

/-- Witness for C2: in a child workspace holding a local blob x with
payload 1, a forwarded entry also named x pointing at another workspace
whose blob holds 2, and a parent whose blob x holds 3, GetBlob returns
the local payload 1; and in the empty workspace a missing name yields
null. -/
theorem getBlob_resolution_precedence_witness :
    (Workspace.mk [("x", some 1)]
      [("x", Workspace.mk [("y", some 2)] [] none, "y")]
      (some (Workspace.mk [("x", some 3)] [] none))).GetBlob "x"
      = some (some 1) ∧
    (Workspace.mk [] [] none).GetBlob "x" = none := by
  constructor
  · exact ((getBlob_resolution_precedence [("x", some 1)]
      [("x", Workspace.mk [("y", some 2)] [] none, "y")]
      (some (Workspace.mk [("x", some 3)] [] none)) "x").1 (some 1) (by decide)).1
  · exact ((getBlob_resolution_precedence [] [] none "x").2.2.2.1 (by decide)
      rfl rfl).1

/-- C5: CreateBlob is idempotent: when the name is already visible or
already forwarded it returns the existing blob and leaves the workspace
unchanged; otherwise it allocates a fresh empty blob; and the
create-write-create-read round trip returns the written value, so a
second create does not clear existing content. -/
theorem createBlob_idempotent (ws : Workspace) (name : String) (v : Nat) :
    (ws.HasBlob name = true → ws.CreateBlob name = (ws, ws.GetBlob name)) ∧
    ((lookupFwd ws.forwarded_blobs name).isSome = true →
      ws.CreateBlob name = (ws, ws.GetBlob name)) ∧
    (ws.HasBlob name = false → lookupFwd ws.forwarded_blobs name = none →
      (ws.CreateBlob name).2 = some none ∧
      ((ws.CreateBlob name).1).GetBlob name = some none) ∧
    (ws.HasBlob name = false → lookupFwd ws.forwarded_blobs name = none →
      ((ws.CreateBlob name).1.setLocalBlob name v).CreateBlob name =
        ((ws.CreateBlob name).1.setLocalBlob name v, some (some v))) := by
  obtain ⟨blobs, fwd, shared⟩ := ws
  have hfb : (Workspace.mk blobs fwd shared).forwarded_blobs = fwd := rfl
  have key : (Workspace.mk blobs fwd shared).HasBlob name = false →
      lookupFwd fwd name = none →
      (Workspace.mk blobs fwd shared).CreateBlob name =
        (Workspace.mk ((name, (none : Blob)) :: blobs) fwd shared, some none) := by
    intro hb hf
    rw [Workspace.CreateBlob]
    simp only [hb, hf, Bool.false_eq_true, if_false, Option.isSome_none]
    rw [Workspace.GetBlob]
    simp [lookupBlob]
  refine ⟨?_, ?_, ?_, ?_⟩
  · intro h
    rw [Workspace.CreateBlob]
    simp [h]
  · intro h
    by_cases hb : (Workspace.mk blobs fwd shared).HasBlob name
    · rw [Workspace.CreateBlob]; simp [hb]
    · rw [Workspace.CreateBlob]
      simp only [Bool.not_eq_true] at hb
      rw [hfb] at h
      simp [hb, h]
  · intro hb hf
    rw [hfb] at hf
    rw [key hb hf]
    constructor
    · rfl
    · rw [Workspace.GetBlob]
      simp [lookupBlob]
  · intro hb hf
    rw [hfb] at hf
    rw [key hb hf]
    rw [Workspace.setLocalBlob, setBlobInList]
    simp only [if_pos rfl]
    have h1 : (Workspace.mk ((name, some v) :: blobs) fwd shared).HasBlob name = true := by
      rw [Workspace.HasBlob]
      simp [lookupBlob]
    rw [Workspace.CreateBlob]
    simp only [h1, if_true]
    rw [Workspace.GetBlob]
    simp [lookupBlob]

/-- Witness for C5: in an empty workspace, creating x, writing 7 through
the returned cell, creating x again and reading back yields 7. -/
theorem createBlob_idempotent_witness :
    ((((Workspace.mk [] [] none).CreateBlob "x").1.setLocalBlob "x" 7).CreateBlob "x")
      = ((((Workspace.mk [] [] none).CreateBlob "x").1.setLocalBlob "x" 7), some (some 7)) := by
  have hb : (Workspace.mk ([] : List (String × Blob)) [] none).HasBlob "x" = false := by
    rw [Workspace.HasBlob]
    simp only [lookupBlob]
    rw [hasFwdBlob]
  exact (createBlob_idempotent (Workspace.mk [] [] none) "x" 7).2.2.2 hb rfl

/-- C9: CreateBlob can return null: when the name is registered in the
forwarded-blob map but the source workspace no longer holds the source
blob, CreateBlob skips allocation and the final lookup returns null,
leaving the workspace unchanged. -/
theorem createBlob_dead_forward (blobs : List (String × Blob))
    (fwd : List (String × Workspace × String)) (shared : Option Workspace)
    (name : String) (src : Workspace) (srcName : String)
    (hb : lookupBlob blobs name = none)
    (hf : lookupFwd fwd name = some (src, srcName))
    (hs : src.HasBlob srcName = false) :
    (Workspace.mk blobs fwd shared).CreateBlob name =
      (Workspace.mk blobs fwd shared, none) := by
  have hHas : (Workspace.mk blobs fwd shared).HasBlob name = false := by
    rw [Workspace.HasBlob]
    simp only [hb]
    rw [hasFwdBlob_lookup_some fwd shared name src srcName hf]
    exact hs
  have hGet : (Workspace.mk blobs fwd shared).GetBlob name = none :=
    getBlob_eq_none_of_hasBlob_false _ name hHas
  rw [Workspace.CreateBlob]
  simp [hHas, hf, hGet]

/-- Witness for C9: a workspace whose forwarding map sends x to blob y of
an empty source workspace: CreateBlob x returns null and allocates
nothing. -/
theorem createBlob_dead_forward_witness :
    (Workspace.mk [] [("x", Workspace.mk [] [] none, "y")] none).CreateBlob "x"
      = (Workspace.mk [] [("x", Workspace.mk [] [] none, "y")] none, none) := by
  have hs : (Workspace.mk ([] : List (String × Blob)) [] none).HasBlob "y" = false := by
    rw [Workspace.HasBlob]
    simp only [lookupBlob]
    rw [hasFwdBlob]
  exact createBlob_dead_forward [] [("x", Workspace.mk [] [] none, "y")] none
    "x" (Workspace.mk [] [] none) "y" rfl (by simp [lookupFwd]) hs

/-- lookupNet misses any name that is not among the map keys. -/
theorem lookupNet_eq_none_of_not_mem (m : List (String × Net)) (nm : String)
    (h : nm ∉ m.map Prod.fst) : lookupNet m nm = none := by
  induction m with
  | nil => rfl
  | cons hd tl ih =>
    obtain ⟨n, net⟩ := hd
    simp only [List.map_cons, List.mem_cons] at h
    push_neg at h
    rw [lookupNet]
    rw [if_neg (fun he => h.1 he.symm)]
    exact ih h.2

/-- Erasing a name from a key-unique net map removes it entirely. -/
theorem eraseNet_lookup_self (m : List (String × Net)) (nm : String)
    (h : (m.map Prod.fst).Nodup) : lookupNet (eraseNet m nm) nm = none := by
  induction m with
  | nil => rfl
  | cons hd tl ih =>
    obtain ⟨n, net⟩ := hd
    simp only [List.map_cons, List.nodup_cons] at h
    rw [eraseNet]
    by_cases he : n = nm
    · rw [if_pos he]
      subst he
      exact lookupNet_eq_none_of_not_mem tl n h.1
    · rw [if_neg he]
      rw [lookupNet]
      rw [if_neg he]
      exact ih h.2

/-- C4: CreateNet is fatal when the definition carries no name; fatal
when a same-named net exists and overwrite is false, leaving the existing
net registered; with overwrite the old net is removed from the map before
the constructor is consulted (the constructor sees the key set with the
old name already erased, and on a key-unique map the old name is gone
entirely); and when construction fails no entry is retained for the name
and a recoverable null is returned. -/
theorem createNet_semantics (factory : NetDef → List String → Option Net)
    (net_map : List (String × Net)) (net_def : NetDef) (overwrite : Bool) :
    (net_def.name = none →
      Workspace.CreateNet factory net_map net_def overwrite =
        (net_map, Except.error CreateNetError.missingName)) ∧
    (∀ nm old, net_def.name = some nm → lookupNet net_map nm = some old →
      Workspace.CreateNet factory net_map net_def false =
        (net_map, Except.error (CreateNetError.refuseOverwrite nm)) ∧
      lookupNet (Workspace.CreateNet factory net_map net_def false).1 nm = some old) ∧
    (∀ nm old, net_def.name = some nm → lookupNet net_map nm = some old →
      Workspace.CreateNet factory net_map net_def true =
        (match factory net_def ((eraseNet net_map nm).map Prod.fst) with
         | some net => ((nm, net) :: eraseNet net_map nm, Except.ok (some net))
         | none => (eraseNet net_map nm, Except.ok none)) ∧
      ((net_map.map Prod.fst).Nodup →
        lookupNet (eraseNet net_map nm) nm = none)) ∧
    (∀ nm, net_def.name = some nm →
      ((lookupNet net_map nm).isSome → overwrite = true) →
      factory net_def
        ((if (lookupNet net_map nm).isSome then eraseNet net_map nm
          else net_map).map Prod.fst) = none →
      (net_map.map Prod.fst).Nodup →
      Workspace.CreateNet factory net_map net_def overwrite =
        ((if (lookupNet net_map nm).isSome then eraseNet net_map nm else net_map),
         Except.ok none) ∧
      lookupNet (Workspace.CreateNet factory net_map net_def overwrite).1 nm = none) := by
  refine ⟨?_, ?_, ?_, ?_⟩
  · intro h
    rw [Workspace.CreateNet, h]
  · intro nm old hn hl
    have h1 : Workspace.CreateNet factory net_map net_def false =
        (net_map, Except.error (CreateNetError.refuseOverwrite nm)) := by
      rw [Workspace.CreateNet, hn]
      simp [hl]
    exact ⟨h1, by rw [h1]; exact hl⟩
  · intro nm old hn hl
    constructor
    · rw [Workspace.CreateNet, hn]
      simp [hl]
    · intro hnd
      exact eraseNet_lookup_self net_map nm hnd
  · intro nm hn hov hfac hnd
    have h1 : Workspace.CreateNet factory net_map net_def overwrite =
        ((if (lookupNet net_map nm).isSome then eraseNet net_map nm else net_map),
         Except.ok none) := by
      rw [Workspace.CreateNet, hn]
      by_cases hl : (lookupNet net_map nm).isSome
      · have ho := hov hl
        subst ho
        simp only [hl, if_true] at hfac
        simp [hl, hfac]
      · have hl2 : (lookupNet net_map nm).isSome = false := by simpa using hl
        simp only [hl2, Bool.false_eq_true, if_false] at hfac
        simp [hl2, hfac]
    refine ⟨h1, ?_⟩
    rw [h1]
    by_cases hl : (lookupNet net_map nm).isSome
    · simp only [hl, if_true]
      exact eraseNet_lookup_self net_map nm hnd
    · simp only [hl, if_false]
      simpa using hl

/-- Witness for C4: a nameless definition is fatal; with an existing net
n and overwrite false CreateNet is fatal and n stays registered; with
overwrite true and a failing constructor the old entry is gone, no entry
is retained and null is returned. -/
theorem createNet_semantics_witness :
    (Workspace.CreateNet (fun _ _ => none) [] { name := none, type := "simple" } false
      = ([], Except.error CreateNetError.missingName)) ∧
    (Workspace.CreateNet (fun _ _ => none) [("n", { netId := 0 })]
        { name := some "n", type := "simple" } false
      = ([("n", { netId := 0 })],
         Except.error (CreateNetError.refuseOverwrite "n"))) ∧
    (Workspace.CreateNet (fun _ _ => none) [("n", { netId := 0 })]
        { name := some "n", type := "simple" } true
      = ([], Except.ok none)) := by
  refine ⟨?_, ?_, ?_⟩
  · exact (createNet_semantics (fun _ _ => none) []
      { name := none, type := "simple" } false).1 rfl
  · exact ((createNet_semantics (fun _ _ => none) [("n", { netId := 0 })]
      { name := some "n", type := "simple" } false).2.1 "n" { netId := 0 }
      rfl (by decide)).1
  · exact ((createNet_semantics (fun _ _ => none) [("n", { netId := 0 })]
      { name := some "n", type := "simple" } true).2.2.2 "n"
      rfl (by decide) (by decide) (by decide)).1

/-- A successful CreateBlob leaves the name visible in the resulting
workspace. -/
theorem createBlob_hasBlob_of_some (ws : Workspace) (name : String) (b : Blob)
    (h : (ws.CreateBlob name).2 = some b) :
    ((ws.CreateBlob name).1).HasBlob name = true := by
  obtain ⟨blobs, fwd, shared⟩ := ws
  rw [Workspace.CreateBlob] at h ⊢
  by_cases hb : (Workspace.mk blobs fwd shared).HasBlob name
  · simp [hb]
  · have hb2 : (Workspace.mk blobs fwd shared).HasBlob name = false := by
      simpa using hb
    by_cases hf : (lookupFwd fwd name).isSome
    · exfalso
      rw [getBlob_eq_none_of_hasBlob_false _ name hb2] at h
      simp [hb2, hf] at h
    · have hf2 : (lookupFwd fwd name).isSome = false := by simpa using hf
      simp only [hb2, hf2, Bool.false_eq_true, if_false]
      rw [Workspace.HasBlob]
      simp [lookupBlob]

/-- CreateBlob never hides a name that was already visible. -/
theorem createBlob_preserves_hasBlob (ws : Workspace) (m n : String)
    (h : ws.HasBlob n = true) : ((ws.CreateBlob m).1).HasBlob n = true := by
  obtain ⟨blobs, fwd, shared⟩ := ws
  rw [Workspace.CreateBlob]
  by_cases hb : (Workspace.mk blobs fwd shared).HasBlob m
  · simpa [hb] using h
  · have hb2 : (Workspace.mk blobs fwd shared).HasBlob m = false := by simpa using hb
    by_cases hf : (lookupFwd fwd m).isSome
    · simpa [hb2, hf] using h
    · have hf2 : (lookupFwd fwd m).isSome = false := by simpa using hf
      simp only [hb2, hf2, Bool.false_eq_true, if_false]
      rw [Workspace.HasBlob] at h ⊢
      rw [lookupBlob]
      by_cases hmn : m = n
      · simp [hmn]
      · rw [if_neg hmn]
        exact h

/-- The output-creation loop never hides a name that was already
visible. -/
theorem createOutputs_preserves_hasBlob (l : List String) (ws ws2 : Workspace)
    (bs : List Blob) (n : String)
    (h : createOutputs ws l = Except.ok (ws2, bs))
    (hn : ws.HasBlob n = true) : ws2.HasBlob n = true := by
  induction l generalizing ws bs with
  | nil =>
    rw [createOutputs] at h
    cases h
    exact hn
  | cons hd tl ih =>
    rw [createOutputs] at h
    cases hcb : ws.CreateBlob hd with
    | mk wsA ob =>
      rw [hcb] at h
      cases ob with
      | none => cases h
      | some b =>
        dsimp only at h
        cases hrest : createOutputs wsA tl with
        | error e => rw [hrest] at h; cases h
        | ok pr =>
          obtain ⟨ws3, bs3⟩ := pr
          rw [hrest] at h
          cases h
          have hA : wsA.HasBlob n = true := by
            have := createBlob_preserves_hasBlob ws hd n hn
            rw [hcb] at this
            exact this
          exact ih wsA bs3 hrest hA

/-- A successful output-creation loop creates one binding per output
name and leaves every output name visible in the final workspace. -/
theorem createOutputs_ok (l : List String) (ws ws2 : Workspace) (bs : List Blob)
    (h : createOutputs ws l = Except.ok (ws2, bs)) :
    bs.length = l.length ∧ ∀ o ∈ l, ws2.HasBlob o = true := by
  induction l generalizing ws bs with
  | nil =>
    rw [createOutputs] at h
    cases h
    simp
  | cons hd tl ih =>
    rw [createOutputs] at h
    cases hcb : ws.CreateBlob hd with
    | mk wsA ob =>
      rw [hcb] at h
      cases ob with
      | none => cases h
      | some b =>
        dsimp only at h
        cases hrest : createOutputs wsA tl with
        | error e => rw [hrest] at h; cases h
        | ok pr =>
          obtain ⟨ws3, bs3⟩ := pr
          rw [hrest] at h
          cases h
          obtain ⟨hlen, hall⟩ := ih wsA bs3 hrest
          refine ⟨by simpa using hlen, ?_⟩
          intro o ho
          rcases List.mem_cons.mp ho with ho | ho
          · subst ho
            have hsome : (ws.CreateBlob o).2 = some b := by rw [hcb]
            have h1 := createBlob_hasBlob_of_some ws o b hsome
            rw [hcb] at h1
            exact createOutputs_preserves_hasBlob tl wsA ws2 bs3 o hrest h1
          · exact hall o ho

/-- A successful input-gathering loop resolves every input name. -/
theorem collectInputs_ok (ws : Workspace) (t : String) (l : List String)
    (bs : List Blob) (h : collectInputs ws t l = Except.ok bs) :
    bs.length = l.length ∧ ∀ i ∈ l, (ws.GetBlob i).isSome = true := by
  induction l generalizing bs with
  | nil =>
    rw [collectInputs] at h
    cases h
    simp
  | cons hd tl ih =>
    rw [collectInputs] at h
    cases hg : ws.GetBlob hd with
    | none => rw [hg] at h; cases h
    | some b =>
      rw [hg] at h
      cases hrest : collectInputs ws t tl with
      | error e => rw [hrest] at h; cases h
      | ok bs2 =>
        rw [hrest] at h
        cases h
        obtain ⟨hlen, hall⟩ := ih bs2 hrest
        refine ⟨by simpa using hlen, ?_⟩
        intro i hi
        rcases List.mem_cons.mp hi with hi | hi
        · subst hi; simp [hg]
        · exact hall i hi

/-- The input-gathering loop fails on the first unresolvable input with
the descriptive error naming the op type and the input. -/
theorem collectInputs_first_error (ws : Workspace) (t : String)
    (pre post : List String) (bad : String)
    (hpre : ∀ i ∈ pre, (ws.GetBlob i).isSome = true)
    (hbad : ws.GetBlob bad = none) :
    collectInputs ws t (pre ++ bad :: post) =
      Except.error ("op " ++ t ++ ": Encountered a non-existing input blob: " ++ bad) := by
  induction pre with
  | nil =>
    rw [List.nil_append, collectInputs, hbad]
  | cons hd tl ih =>
    have hhd : (ws.GetBlob hd).isSome = true := hpre hd (by simp)
    obtain ⟨b, hb⟩ := Option.isSome_iff_exists.mp hhd
    rw [List.cons_append, collectInputs, hb]
    rw [ih (fun i hi => hpre i (by simp [hi]))]

/-- C10: constructing an OperatorBase fails with a descriptive error
naming the op type and the input whenever some input name does not
resolve to an existing blob; and on success there is one input binding
per input name, one output binding per output name (so all bindings are
non-null), every input name resolved in the pre-construction workspace,
and every output name has been created in the resulting workspace. -/
theorem operatorBase_construct_contract (d : OperatorDef) (ws : Workspace) :
    (∀ pre bad post, d.input = pre ++ bad :: post →
      (∀ i ∈ pre, (ws.GetBlob i).isSome = true) →
      ws.GetBlob bad = none →
      OperatorBase.construct d ws =
        Except.error
          ("op " ++ d.type ++ ": Encountered a non-existing input blob: " ++ bad)) ∧
    (∀ ws2 ins outs, OperatorBase.construct d ws = Except.ok (ws2, ins, outs) →
      ins.length = d.input.length ∧ outs.length = d.output.length ∧
      (∀ i ∈ d.input, (ws.GetBlob i).isSome = true) ∧
      (∀ o ∈ d.output, ws2.HasBlob o = true)) := by
  constructor
  · intro pre bad post hin hpre hbad
    rw [OperatorBase.construct, hin,
      collectInputs_first_error ws d.type pre post bad hpre hbad]
  · intro ws2 ins outs h
    rw [OperatorBase.construct] at h
    cases hci : collectInputs ws d.type d.input with
    | error e => rw [hci] at h; cases h
    | ok bs =>
      rw [hci] at h
      cases hco : createOutputs ws d.output with
      | error e => rw [hco] at h; cases h
      | ok pr =>
        obtain ⟨ws3, outs3⟩ := pr
        rw [hco] at h
        cases h
        obtain ⟨hl1, hall1⟩ := collectInputs_ok ws d.type d.input ins hci
        obtain ⟨hl2, hall2⟩ := createOutputs_ok d.output ws ws2 outs hco
        exact ⟨hl1, hl2, hall1, hall2⟩

/-- Witness for C10: in a workspace holding blob a, constructing an op
with unknown input z fails with the descriptive error; constructing an op
reading a and writing b succeeds, binds one input and one output, and
leaves b created in the workspace. -/
theorem operatorBase_construct_contract_witness :
    OperatorBase.construct
        { type := "Sum", engine := "", device_type := 0, input := ["z"], output := [] }
        (Workspace.mk [("a", some 5)] [] none) =
      Except.error ("op " ++ "Sum" ++ ": Encountered a non-existing input blob: " ++ "z") ∧
    (Workspace.mk [("b", (none : Blob)), ("a", some 5)] [] none).HasBlob "b" = true := by
  have hz : (Workspace.mk [("a", some 5)] [] none).GetBlob "z" = none := by
    rw [Workspace.GetBlob]
    simp only [lookupBlob]
    rw [if_neg (by decide)]
    rw [getFwdBlob]
  have hga : (Workspace.mk [("a", some 5)] [] none).GetBlob "a" = some (some 5) := by
    rw [Workspace.GetBlob]
    simp [lookupBlob]
  have hci : collectInputs (Workspace.mk [("a", some 5)] [] none) "Sum" ["a"]
      = Except.ok [some 5] := by
    rw [collectInputs, hga]
    dsimp only
    rw [collectInputs]
  have hhb : (Workspace.mk [("a", some 5)] [] none).HasBlob "b" = false := by
    rw [Workspace.HasBlob]
    simp only [lookupBlob]
    rw [if_neg (by decide)]
    rw [hasFwdBlob]
  have hcb : (Workspace.mk [("a", some 5)] [] none).CreateBlob "b"
      = (Workspace.mk [("b", (none : Blob)), ("a", some 5)] [] none, some none) := by
    rw [Workspace.CreateBlob]
    simp only [hhb, Bool.false_eq_true, if_false, lookupFwd, Option.isSome_none]
    rw [Workspace.GetBlob]
    simp [lookupBlob]
  have hco : createOutputs (Workspace.mk [("a", some 5)] [] none) ["b"]
      = Except.ok (Workspace.mk [("b", (none : Blob)), ("a", some 5)] [] none,
          [(none : Blob)]) := by
    rw [createOutputs, hcb]
    dsimp only
    rw [createOutputs]
  have hok : OperatorBase.construct
      { type := "Sum", engine := "", device_type := 0, input := ["a"], output := ["b"] }
      (Workspace.mk [("a", some 5)] [] none) =
      Except.ok (Workspace.mk [("b", (none : Blob)), ("a", some 5)] [] none,
        [some 5], [(none : Blob)]) := by
    rw [OperatorBase.construct]
    dsimp only
    rw [hci]
    dsimp only
    rw [hco]
  constructor
  · exact (operatorBase_construct_contract
      { type := "Sum", engine := "", device_type := 0, input := ["z"], output := [] }
      (Workspace.mk [("a", some 5)] [] none)).1 [] "z" [] rfl (by simp) hz
  · exact ((operatorBase_construct_contract
      { type := "Sum", engine := "", device_type := 0, input := ["a"], output := ["b"] }
      (Workspace.mk [("a", some 5)] [] none)).2 _ _ _ hok).2.2.2 "b" (by simp)

/-- The engine loop skips a prefix of candidates that all fail
recoverably. -/
theorem engineTryLoop_append_none (env : DispatchEnv) (d : OperatorDef)
    (pre l : List String)
    (h : ∀ e ∈ pre, TryCreateOperator env (OpRegistryKey d.type e) d = Except.ok none) :
    engineTryLoop env d (pre ++ l) = engineTryLoop env d l := by
  induction pre with
  | nil => rfl
  | cons hd tl ih =>
    rw [List.cons_append, engineTryLoop, h hd (by simp)]
    exact ih (fun e he => h e (by simp [he]))

/-- The engine loop returns none when every candidate fails
recoverably. -/
theorem engineTryLoop_all_none (env : DispatchEnv) (d : OperatorDef)
    (l : List String)
    (h : ∀ e ∈ l, TryCreateOperator env (OpRegistryKey d.type e) d = Except.ok none) :
    engineTryLoop env d l = Except.ok none := by
  have h2 := engineTryLoop_append_none env d l [] h
  rw [List.append_nil] at h2
  rw [h2, engineTryLoop]

/-- A passing (or absent) schema reduces _CreateOperator to the engine
dispatch phase. -/
theorem createOperator_schema_pass (env : DispatchEnv) (d : OperatorDef)
    (h : match env.schema d.type with
         | some verify => verify d = true
         | none => True) :
    _CreateOperator env d = engineDispatch env d := by
  rw [_CreateOperator]
  cases hs : env.schema d.type with
  | none => rfl
  | some verify =>
    rw [hs] at h
    simp [h]

/-- C1: the candidate engine list is the explicit comma-separated engines
of the spec, then the per-operator preference for (device, opType), then
the global per-device preference, the implicit parts omitted when the
implicit-preference flag is disabled; dispatch tries candidates strictly
in that order, returning an instance annotated with the first engine
whose construction succeeds, and falls back to the bare operator type
only after every listed candidate has failed. -/
theorem createOperator_engine_order (env : DispatchEnv) (d : OperatorDef)
    (pre post : List String) (sel : String) (id : Nat) :
    (candidateEngines env d =
      (if d.engine.length ≠ 0 then splitEngines d.engine else []) ++
      (if env.disableImplicitEnginePref then []
       else (env.perOpEnginePref d.device_type d.type).getD []) ++
      (if env.disableImplicitEnginePref then []
       else (env.globalEnginePref d.device_type).getD [])) ∧
    (env.disableImplicitEnginePref = true →
      candidateEngines env d =
        if d.engine.length ≠ 0 then splitEngines d.engine else []) ∧
    ((match env.schema d.type with
      | some verify => verify d = true
      | none => True) →
      candidateEngines env d = pre ++ sel :: post →
      (∀ e ∈ pre, TryCreateOperator env (OpRegistryKey d.type e) d = Except.ok none) →
      TryCreateOperator env (OpRegistryKey d.type sel) d = Except.ok (some id) →
      _CreateOperator env d =
        Except.ok { kernelId := id, engine := annotateEngine env sel, net_position := 0 }) ∧
    ((match env.schema d.type with
      | some verify => verify d = true
      | none => True) →
      (∀ e ∈ candidateEngines env d,
        TryCreateOperator env (OpRegistryKey d.type e) d = Except.ok none) →
      _CreateOperator env d =
        (match TryCreateOperator env d.type d with
         | Except.error e => Except.error e
         | Except.ok (some id2) =>
             Except.ok { kernelId := id2, engine := "", net_position := 0 }
         | Except.ok none =>
             Except.error (DispatchError.cannotCreateOperator d.type d.device_type))) := by
  refine ⟨rfl, ?_, ?_, ?_⟩
  · intro h
    rw [candidateEngines, h]
    simp
  · intro hschema hcand hpre hsel
    rw [createOperator_schema_pass env d hschema, engineDispatch, hcand,
      engineTryLoop_append_none env d pre (sel :: post) hpre, engineTryLoop, hsel]
  · intro hschema hall
    rw [createOperator_schema_pass env d hschema, engineDispatch,
      engineTryLoop_all_none env d (candidateEngines env d) hall]

/-- Witness for C1: with explicit engines A and B, per-op preference C,
global preference D, and only B constructible, dispatch selects B (id 42,
annotated B). -/
theorem createOperator_engine_order_witness :
    _CreateOperator envOnlyB defOnlyB =
      Except.ok { kernelId := 42, engine := "B", net_position := 0 } := by
  have h := (createOperator_engine_order envOnlyB defOnlyB ["A"] ["C", "D"] "B" 42).2.2.1
    trivial (by decide)
    (by intro e he; rw [List.mem_singleton] at he; subst he; rfl) rfl
  rw [h]
  rfl

/-- C6: when a schema is registered for the op type, dispatch verifies
the spec against it and a verification failure is fatal; when the schema
passes or no schema is registered, construction proceeds to engine
dispatch — schema absence never blocks construction. -/
theorem schema_check_behavior (env : DispatchEnv) (d : OperatorDef) :
    (∀ verify, env.schema d.type = some verify → verify d = false →
      _CreateOperator env d = Except.error (DispatchError.schemaCheckFailed d.type)) ∧
    (∀ verify, env.schema d.type = some verify → verify d = true →
      _CreateOperator env d = engineDispatch env d) ∧
    (env.schema d.type = none →
      _CreateOperator env d = engineDispatch env d) := by
  refine ⟨?_, ?_, ?_⟩
  · intro verify hs hv
    rw [_CreateOperator, hs]
    simp [hv]
  · intro verify hs hv
    exact createOperator_schema_pass env d (by rw [hs]; exact hv)
  · intro hs
    exact createOperator_schema_pass env d (by rw [hs]; trivial)

/-- Witness for C6: a schema demanding two inputs is fatal on a zero-
input spec, and the schema-free scenario proceeds to engine dispatch. -/
theorem schema_check_behavior_witness :
    _CreateOperator envSchemaTwoInputs defOnlyB =
      Except.error (DispatchError.schemaCheckFailed "Op") ∧
    _CreateOperator envOnlyB defOnlyB = engineDispatch envOnlyB defOnlyB := by
  constructor
  · exact (schema_check_behavior envSchemaTwoInputs defOnlyB).1
      (fun d => decide (d.input.length = 2)) rfl (by decide)
  · exact (schema_check_behavior envOnlyB defOnlyB).2.2 rfl

/-- C3: a per-engine construction attempt signalling the feature-
unsupported condition is swallowed and the next candidate is tried; any
other construction failure propagates immediately and aborts dispatch;
when construction fails with non-zero net position the workspace records
that position as last failed before the error propagates; and the
recorded value never affects the outcome of a dispatch attempt. -/
theorem dispatch_error_handling (env : DispatchEnv) (d : OperatorDef)
    (engine : String) (rest : List String) (ws ws2 : WsDispatchState)
    (net_position : Int) (err : DispatchError) :
    (env.deviceRegistered d.device_type = true →
      env.registryCreate d.device_type (OpRegistryKey d.type engine) =
        RegOutcome.unsupported →
      engineTryLoop env d (engine :: rest) = engineTryLoop env d rest) ∧
    (TryCreateOperator env (OpRegistryKey d.type engine) d = Except.error err →
      engineTryLoop env d (engine :: rest) = Except.error err) ∧
    (_CreateOperator env d = Except.error err → net_position ≠ 0 →
      CreateOperator env d ws net_position =
        ({ last_failed_op_net_position := net_position }, Except.error err)) ∧
    (_CreateOperator env d = Except.error err → net_position = 0 →
      CreateOperator env d ws net_position = (ws, Except.error err)) ∧
    ((CreateOperator env d ws net_position).2 =
      (CreateOperator env d ws2 net_position).2) := by
  refine ⟨?_, ?_, ?_, ?_, ?_⟩
  · intro hdev hreg
    rw [engineTryLoop, TryCreateOperator]
    simp [hdev, hreg]
  · intro h
    rw [engineTryLoop, h]
  · intro h hnp
    rw [CreateOperator, h]
    simp [hnp]
  · intro h hnp
    rw [CreateOperator, h]
    simp [hnp]
  · rw [CreateOperator, CreateOperator]
    cases _CreateOperator env d with
    | ok op => rfl
    | error e =>
      by_cases hnp : net_position = 0
      · simp [hnp]
      · simp [hnp]

/-- Witness for C3: an unsupported signal on engine A moves the loop on
to the next candidate; a hard error on engine A aborts the loop with that
error; a failing construction at net position 5 records 5 as last failed
and rethrows. -/
theorem dispatch_error_handling_witness :
    engineTryLoop envUnsup defEngineA ["A", "Z"] =
      engineTryLoop envUnsup defEngineA ["Z"] ∧
    engineTryLoop envHard defEngineA ["A"] =
      Except.error (DispatchError.registryError "Op_ENGINE_A") ∧
    CreateOperator envHard defEngineA { last_failed_op_net_position := 0 } 5 =
      ({ last_failed_op_net_position := 5 },
       Except.error (DispatchError.registryError "Op_ENGINE_A")) := by
  refine ⟨?_, ?_, ?_⟩
  · exact (dispatch_error_handling envUnsup defEngineA "A" ["Z"]
      { last_failed_op_net_position := 0 } { last_failed_op_net_position := 0 }
      0 (DispatchError.registryError "Op_ENGINE_A")).1 rfl rfl
  · exact (dispatch_error_handling envHard defEngineA "A" []
      { last_failed_op_net_position := 0 } { last_failed_op_net_position := 0 }
      0 (DispatchError.registryError "Op_ENGINE_A")).2.1 rfl
  · exact (dispatch_error_handling envHard defEngineA "A" []
      { last_failed_op_net_position := 0 } { last_failed_op_net_position := 0 }
      5 (DispatchError.registryError "Op_ENGINE_A")).2.2.1 rfl (by decide)

/-- getD after a set to true: changed at an in-range index, untouched
elsewhere. -/
theorem getD_set_true (s : List Bool) (j i : Nat) :
    (s.set j true).getD i false =
      if j = i ∧ j < s.length then true else s.getD i false := by
  rw [List.getD_eq_getElem?_getD, List.getD_eq_getElem?_getD, List.getElem?_set]
  by_cases h1 : j = i
  · subst h1
    by_cases h2 : j < s.length
    · simp [h2]
    · have h3 : s[j]? = none := List.getElem?_eq_none (Nat.le_of_not_lt h2)
      simp [h2, h3]
  · simp [h1]

/-- A slot of a fold of in-range set-to-true operations is true iff it
was true before or some step wrote it. -/
theorem foldl_set_true_getD (ts : List Nat) (g : Nat → Nat) (s : List Bool) (i : Nat)
    (hb : ∀ t ∈ ts, g t < s.length) :
    ((ts.foldl (fun acc t => acc.set (g t) true) s).getD i false = true ↔
      (s.getD i false = true ∨ ∃ t ∈ ts, g t = i)) := by
  induction ts generalizing s with
  | nil => simp
  | cons t0 rest ih =>
    rw [List.foldl_cons]
    have hb2 : ∀ t ∈ rest, g t < (s.set (g t0) true).length := by
      rw [List.length_set]
      exact fun t ht => hb t (List.mem_cons_of_mem _ ht)
    rw [ih (s.set (g t0) true) hb2, getD_set_true]
    by_cases h1 : g t0 = i
    · have h2 : g t0 < s.length := hb t0 (List.mem_cons_self t0 rest)
      rw [if_pos ⟨h1, h2⟩]
      constructor
      · intro _
        exact Or.inr ⟨t0, List.mem_cons_self t0 rest, h1⟩
      · intro _
        exact Or.inl rfl
    · rw [if_neg (fun hc => h1 hc.1)]
      constructor
      · rintro (h | ⟨t, ht, hgt⟩)
        · exact Or.inl h
        · exact Or.inr ⟨t, List.mem_cons_of_mem _ ht, hgt⟩
      · rintro (h | ⟨t, ht, hgt⟩)
        · exact Or.inl h
        · rcases List.mem_cons.mp ht with rfl | ht2
          · exact absurd hgt h1
          · exact Or.inr ⟨t, ht2, hgt⟩

/-- Padding a slot vector with empty slots changes no slot content. -/
theorem getD_append_false (s : List Bool) (k i : Nat) :
    (s ++ List.replicate k false).getD i false = s.getD i false := by
  rw [List.getD_eq_getElem?_getD, List.getD_eq_getElem?_getD, List.getElem?_append]
  by_cases h : i < s.length
  · simp [h]
  · rw [if_neg h, List.getElem?_replicate]
    have h2 : s[i]? = none := List.getElem?_eq_none (Nat.le_of_not_lt h)
    rw [h2]
    by_cases h3 : i - s.length < k <;> simp [h3]

/-- With a backward pass the sizing phase is exactly the grow-to-seqLen
resize. -/
theorem sizeStepWorkspaces_true (rnn : Bool) (seqLen : Nat) (slots : List Bool) :
    RecurrentNetworkOp.sizeStepWorkspaces true rnn seqLen slots =
      if slots.length < seqLen then RecurrentNetworkOp.resizeSlots slots seqLen
      else slots := by
  rw [RecurrentNetworkOp.sizeStepWorkspaces]
  simp

/-- Without a backward pass the sizing phase is exactly the grow-to-pool
resize. -/
theorem sizeStepWorkspaces_false (rnn : Bool) (seqLen : Nat) (slots : List Bool) :
    RecurrentNetworkOp.sizeStepWorkspaces false rnn seqLen slots =
      if slots.length < RecurrentNetworkOp.num_workspaces_on_fwd_only rnn then
        RecurrentNetworkOp.resizeSlots slots
          (RecurrentNetworkOp.num_workspaces_on_fwd_only rnn)
      else slots := by
  rw [RecurrentNetworkOp.sizeStepWorkspaces]
  simp

/-- The sizing phase never creates nor destroys a child workspace: every
slot keeps its content. -/
theorem sizeStepWorkspaces_getD (hb rnn : Bool) (seqLen : Nat)
    (slots : List Bool) (i : Nat) :
    (RecurrentNetworkOp.sizeStepWorkspaces hb rnn seqLen slots).getD i false =
      slots.getD i false := by
  cases hb with
  | true =>
    rw [sizeStepWorkspaces_true]
    by_cases h : slots.length < seqLen
    · rw [if_pos h, RecurrentNetworkOp.resizeSlots,
        if_neg (Nat.not_le.mpr h), getD_append_false]
    · rw [if_neg h]
  | false =>
    rw [sizeStepWorkspaces_false]
    by_cases h : slots.length < RecurrentNetworkOp.num_workspaces_on_fwd_only rnn
    · rw [if_pos h, RecurrentNetworkOp.resizeSlots,
        if_neg (Nat.not_le.mpr h), getD_append_false]
    · rw [if_neg h]

/-- Length of the sized slot vector with a backward pass: grown to the
sequence length exactly when it was shorter. -/
theorem sizeStepWorkspaces_length_bwd (rnn : Bool) (seqLen : Nat)
    (slots : List Bool) :
    (RecurrentNetworkOp.sizeStepWorkspaces true rnn seqLen slots).length =
      max slots.length seqLen := by
  rw [sizeStepWorkspaces_true]
  by_cases h : slots.length < seqLen
  · rw [if_pos h, RecurrentNetworkOp.resizeSlots, if_neg (Nat.not_le.mpr h)]
    simp
    omega
  · rw [if_neg h]
    omega

/-- Length of the sized slot vector without a backward pass: grown to
the fixed pool size exactly when it was shorter. -/
theorem sizeStepWorkspaces_length_fwd (rnn : Bool) (seqLen : Nat)
    (slots : List Bool) :
    (RecurrentNetworkOp.sizeStepWorkspaces false rnn seqLen slots).length =
      max slots.length (RecurrentNetworkOp.num_workspaces_on_fwd_only rnn) := by
  rw [sizeStepWorkspaces_false]
  by_cases h : slots.length < RecurrentNetworkOp.num_workspaces_on_fwd_only rnn
  · rw [if_pos h, RecurrentNetworkOp.resizeSlots, if_neg (Nat.not_le.mpr h)]
    simp
    omega
  · rw [if_neg h]
    omega

/-- C7: with a backward pass the step-workspace vector is resized to the
sequence length only when that exceeds its current size (grow-only, no
existing slot content lost) and timestep t uses slot t; without a
backward pass it cycles over a fixed pool of size 2, or 4 with the
specialized step executor, timestep t using slot t mod poolSize; and a
run leaves a slot created exactly when it was already created or some
timestep of the run used it (lazy creation, reuse otherwise). -/
theorem rnn_step_workspace_pool (hb rnn : Bool) (seqLen : Nat)
    (slots : List Bool) (t i : Nat) :
    (RecurrentNetworkOp.num_workspaces_on_fwd_only true = 4 ∧
     RecurrentNetworkOp.num_workspaces_on_fwd_only false = 2) ∧
    (RecurrentNetworkOp.slotForTimestep true rnn t = t) ∧
    (RecurrentNetworkOp.slotForTimestep false rnn t =
      t % RecurrentNetworkOp.num_workspaces_on_fwd_only rnn) ∧
    ((RecurrentNetworkOp.sizeStepWorkspaces true rnn seqLen slots).length =
      max slots.length seqLen) ∧
    (seqLen ≤ slots.length →
      RecurrentNetworkOp.sizeStepWorkspaces true rnn seqLen slots = slots) ∧
    ((RecurrentNetworkOp.sizeStepWorkspaces false rnn seqLen slots).length =
      max slots.length (RecurrentNetworkOp.num_workspaces_on_fwd_only rnn)) ∧
    (∀ j, (RecurrentNetworkOp.sizeStepWorkspaces hb rnn seqLen slots).getD j false =
      slots.getD j false) ∧
    ((RecurrentNetworkOp.stepWorkspacesAfterRun hb rnn seqLen slots).getD i false = true ↔
      (slots.getD i false = true ∨
        ∃ u ∈ List.range seqLen, RecurrentNetworkOp.slotForTimestep hb rnn u = i)) := by
  refine ⟨⟨rfl, rfl⟩, rfl, rfl, sizeStepWorkspaces_length_bwd rnn seqLen slots, ?_,
    sizeStepWorkspaces_length_fwd rnn seqLen slots,
    fun j => sizeStepWorkspaces_getD hb rnn seqLen slots j, ?_⟩
  · intro h
    rw [sizeStepWorkspaces_true]
    rw [if_neg (Nat.not_lt.mpr h)]
  · have hnf : 0 < RecurrentNetworkOp.num_workspaces_on_fwd_only rnn := by
      rw [RecurrentNetworkOp.num_workspaces_on_fwd_only]
      cases rnn <;> simp
    have hbound : ∀ u ∈ List.range seqLen,
        RecurrentNetworkOp.slotForTimestep hb rnn u <
          (RecurrentNetworkOp.sizeStepWorkspaces hb rnn seqLen slots).length := by
      intro u hu
      rw [List.mem_range] at hu
      cases hb with
      | true =>
        rw [RecurrentNetworkOp.slotForTimestep, if_pos rfl,
          sizeStepWorkspaces_length_bwd]
        omega
      | false =>
        rw [RecurrentNetworkOp.slotForTimestep, if_neg (by simp),
          sizeStepWorkspaces_length_fwd]
        have := Nat.mod_lt u hnf
        omega
    rw [RecurrentNetworkOp.stepWorkspacesAfterRun, RecurrentNetworkOp.runTimestepSlots,
      foldl_set_true_getD (List.range seqLen)
        (RecurrentNetworkOp.slotForTimestep hb rnn)
        (RecurrentNetworkOp.sizeStepWorkspaces hb rnn seqLen slots) i hbound]
    rw [sizeStepWorkspaces_getD]

/-- Witness for C7: starting from no step workspaces, a backward run over
3 timesteps creates slot 2 (timestep 2 uses slot 2), while a forward-only
run without the specialized executor over 3 timesteps uses slot 0 for
timestep 2 (2 mod 2) and never creates slot 2. -/
theorem rnn_step_workspace_pool_witness :
    (RecurrentNetworkOp.stepWorkspacesAfterRun true false 3 []).getD 2 false = true ∧
    (RecurrentNetworkOp.stepWorkspacesAfterRun false false 3 []).getD 2 false = false := by
  constructor
  · exact ((rnn_step_workspace_pool true false 3 [] 0 2).2.2.2.2.2.2.2).mpr
      (Or.inr ⟨2, by decide, by decide⟩)
  · have h := (rnn_step_workspace_pool false false 3 [] 0 2).2.2.2.2.2.2.2
    rcases hval : (RecurrentNetworkOp.stepWorkspacesAfterRun false false 3 []).getD 2 false with _ | _
    · rfl
    · exfalso
      rcases h.mp hval with hc | ⟨u, hu, hc⟩
      · simp at hc
      · rw [List.mem_range] at hu
        rw [RecurrentNetworkOp.slotForTimestep, if_neg (by simp)] at hc
        rw [RecurrentNetworkOp.num_workspaces_on_fwd_only] at hc
        simp at hc
        omega

/-- C8: for every RecurrentInput, initialization resizes the state blob
to shape (T + L, batch, stateSize), where T is the sequence length, L is
the priming length of the external input (the leading dimension when the
input is 3-D, else 1) and stateSize is the input's last dimension; the
priming values are copied into the first L rows, and a 1-D priming input
is broadcast (repeated) across the batch dimension. -/
theorem initializeRecurrentInput_spec (input : Tensor) (seqLen batchSize : Nat)
    (state : Tensor)
    (hwf : input.data.length = input.dims.prod)
    (hok : initializeRecurrentInput input seqLen batchSize = Except.ok state) :
    state.dims = [seqLen + (if input.ndim = 3 then input.dim 0 else 1), batchSize,
      input.dim (input.ndim - 1)] ∧
    (2 ≤ input.ndim →
      state.data.take (batchSize * input.dim (input.ndim - 1) *
        (if input.ndim = 3 then input.dim 0 else 1)) = input.data) ∧
    (input.ndim = 1 →
      state.data.take (batchSize * input.dim (input.ndim - 1)) =
        List.flatten (List.replicate batchSize input.data)) := by
  obtain ⟨dims, data⟩ := input
  rw [initializeRecurrentInput] at hok
  by_cases h1 : 1 ≤ (Tensor.mk dims data).ndim
  case neg => rw [if_pos h1] at hok; cases hok
  rw [if_neg (not_not_intro h1)] at hok
  by_cases h2 : (Tensor.mk dims data).ndim ≤ 3
  case neg => rw [if_pos h2] at hok; cases hok
  rw [if_neg (not_not_intro h2)] at hok
  have hnd : (Tensor.mk dims data).ndim = dims.length := rfl
  by_cases h3 : 2 ≤ (Tensor.mk dims data).ndim
  · rw [if_pos h3] at hok
    by_cases h4 : (Tensor.mk dims data).dim ((Tensor.mk dims data).ndim - 2) = batchSize
    case neg => rw [if_pos h4] at hok; cases hok
    rw [if_neg (not_not_intro h4)] at hok
    cases hok
    have hd : dims.length = 2 ∨ dims.length = 3 := by omega
    rcases hd with hd | hd
    · obtain ⟨a, c, rfl⟩ := List.length_eq_two.mp hd
      simp only [Tensor.ndim, Tensor.dim, Tensor.data, Tensor.dims,
        List.length_cons, List.length_nil] at h4 hwf ⊢
      norm_num [List.getD] at h4 hwf ⊢
      subst h4
      rw [show data.take (a * c) = data from by rw [← hwf, List.take_length]]
      exact List.take_left' hwf
    · obtain ⟨a, c, e, rfl⟩ := List.length_eq_three.mp hd
      simp only [Tensor.ndim, Tensor.dim, Tensor.data, Tensor.dims,
        List.length_cons, List.length_nil] at h4 hwf ⊢
      norm_num [List.getD] at h4 hwf ⊢
      subst h4
      have hdl : data.length = c * e * a := by rw [hwf]; ring
      rw [show data.take (c * e * a) = data from by rw [← hdl, List.take_length]]
      exact List.take_left' hdl
  · rw [if_neg h3] at hok
    cases hok
    have hd : dims.length = 1 := by omega
    obtain ⟨a, rfl⟩ := List.length_eq_one.mp hd
    simp only [Tensor.ndim, Tensor.dim, Tensor.data, Tensor.dims,
      List.length_cons, List.length_nil] at hwf ⊢
    norm_num [List.getD, repeatCopy] at hwf ⊢
    rw [show data.take a = data from by rw [← hwf, List.take_length]]
    exact List.take_left' (by
      simp [List.length_flatten, List.map_replicate, List.sum_replicate,
        smul_eq_mul, hwf, Nat.mul_comm])

/-- Witness for C8: a 2-D priming input of shape (2, 3) with T = 2
yields state shape (3, 2, 3) with the input copied into the first row,
and a 1-D priming input of length 3 with batch 2 is broadcast twice into
the first row of the (2, 2, 3) state. -/
theorem initializeRecurrentInput_spec_witness :
    initializeRecurrentInput ⟨[2, 3], [1, 2, 3, 4, 5, 6]⟩ 2 2 =
      Except.ok ⟨[3, 2, 3], [1, 2, 3, 4, 5, 6] ++ List.replicate 12 0⟩ ∧
    List.take 6 ([1, 2, 3, 4, 5, 6] ++ List.replicate 12 0) = [1, 2, 3, 4, 5, 6] ∧
    initializeRecurrentInput ⟨[3], [7, 8, 9]⟩ 1 2 =
      Except.ok ⟨[2, 2, 3], [7, 8, 9, 7, 8, 9] ++ List.replicate 6 0⟩ ∧
    List.take 6 ([7, 8, 9, 7, 8, 9] ++ List.replicate 6 0) =
      List.flatten (List.replicate 2 [7, 8, 9]) := by
  have h2d := initializeRecurrentInput_spec ⟨[2, 3], [1, 2, 3, 4, 5, 6]⟩ 2 2
    ⟨[3, 2, 3], [1, 2, 3, 4, 5, 6] ++ List.replicate 12 0⟩ (by decide) rfl
  have h1d := initializeRecurrentInput_spec ⟨[3], [7, 8, 9]⟩ 1 2
    ⟨[2, 2, 3], [7, 8, 9, 7, 8, 9] ++ List.replicate 6 0⟩ (by decide) rfl
  exact ⟨rfl, h2d.2.1 (by decide), rfl, h1d.2.2 (by decide)⟩

end Caffe2
